import Mathlib

/-!
# Verification of the schema2api mock REST server (src/main.go)

A shallow embedding of the Go program in `src/main.go`: a schema-driven mock
REST server.  A JSON schema is uploaded to `/upload`; a catch-all handler then
serves CRUD-style routes for the entity named by the schema title, returning
synthesized dummy objects.

Modelling conventions:
* Go maps (`map[string]Property`, `map[string]interface\x7b\x7d`) are embedded as
  association lists `List (String × _)`; the list order stands for the
  (arbitrary) Go map iteration order, and assignment `m[k] = v` is `mapSet`.
* Go `interface\x7b\x7d` values appearing in responses are the inductive `GoVal`;
  the float literal `0.0` from `dummyData` is the dedicated constructor
  `GoVal.vfloatZero`.
* HTTP responses are inductives recording status class and body; JSON
  serialization itself is not modelled, the structured body is.
* `strings.ToLower` is embedded via `Char.toLower` (ASCII case mapping; the
  full Unicode tables of Go are not modelled).
-/

/-- Go struct `Property` (src/main.go line 21): the type tag of one property. -/
structure Property where
  type : String
  deriving DecidableEq, Repr

/-- Go struct `Schema` (src/main.go line 13).  `properties` is the Go map
`map[string]Property` embedded as an association list in iteration order. -/
structure Schema where
  title : String
  type : String
  properties : List (String × Property)
  required : List String
  deriving DecidableEq, Repr

/-- A Go `interface\x7b\x7d` value as produced by the handlers. -/
inductive GoVal where
  | vnull
  | vbool (b : Bool)
  | vint (n : Int)
  | vfloatZero
  | vstr (s : String)
  deriving DecidableEq, Repr

/-- Go map lookup `m[k]` on the association-list embedding (first match). -/
def mapGet {α : Type} (m : List (String × α)) (k : String) : Option α :=
  match m with
  | [] => none
  | (k2, v) :: rest => if k2 = k then some v else mapGet rest k

/-- Go map assignment `m[k] = v` on the association-list embedding: replace
the entry if the key is present, append otherwise. -/
def mapSet {α : Type} (m : List (String × α)) (k : String) (v : α) :
    List (String × α) :=
  match m with
  | [] => [(k, v)]
  | (k2, v2) :: rest => if k2 = k then (k, v) :: rest else (k2, v2) :: mapSet rest k v

/-- `dummyData` (src/main.go lines 29-49): one placeholder per declared
property, selected by the property's type tag. -/
def dummyData (cur : Option Schema) : List (String × GoVal) :=
  match cur with
  | none => []
  | some schema =>
      schema.properties.map (fun kp =>
        (kp.1,
          match kp.2.type with
          | "string" => GoVal.vstr "example"
          | "integer" => GoVal.vint 1
          | "number" => GoVal.vfloatZero
          | "boolean" => GoVal.vbool false
          | _ => GoVal.vnull))

/-- The placeholder table of the spec (section 4.2), as a standalone map from
type tag to value; used to state that `dummyData` follows the table. -/
def placeholderOf (t : String) : GoVal :=
  match t with
  | "string" => GoVal.vstr "example"
  | "integer" => GoVal.vint 1
  | "number" => GoVal.vfloatZero
  | "boolean" => GoVal.vbool false
  | _ => GoVal.vnull

/-- `strings.Trim(path, "/")` (src/main.go line 80): strip every leading and
trailing slash character. -/
def trimSlashes (s : String) : String :=
  ⟨((s.data.dropWhile (· = '/')).reverse.dropWhile (· = '/')).reverse⟩

/-- Character-level worker for `strings.Split(path, "/")`; `acc` holds the
current segment reversed. -/
def splitSlashAux : List Char → List Char → List String
  | [], acc => [String.mk acc.reverse]
  | c :: rest, acc =>
      if c = '/' then String.mk acc.reverse :: splitSlashAux rest []
      else splitSlashAux rest (c :: acc)

/-- `strings.Split(path, "/")` (src/main.go line 81); on the empty string it
yields the single empty segment, as in Go. -/
def splitSlash (s : String) : List String :=
  splitSlashAux s.data []

/-- `strings.ToLower(currentSchema.Title) + "s"` (src/main.go line 82). -/
def entityOf (schema : Schema) : String :=
  String.mk (schema.title.data.map Char.toLower) ++ "s"

/-- Decimal digit accumulation for `strconv.Atoi`. -/
def parseDigitsAux : List Char → Nat → Option Nat
  | [], acc => some acc
  | c :: rest, acc =>
      if c.isDigit then parseDigitsAux rest (acc * 10 + (c.toNat - 48)) else none

/-- All-digit parse of a non-empty character list. -/
def parseDigits (l : List Char) : Option Nat :=
  match l with
  | [] => none
  | _ => parseDigitsAux l 0

/-- `strconv.Atoi` (base 10, 64-bit int): optional sign, at least one digit,
no other characters, and the value must fit in a signed 64-bit integer. -/
def atoi (s : String) : Option Int :=
  match s.data with
  | '+' :: rest =>
      (parseDigits rest).bind fun n =>
        if n < 2 ^ 63 then some (Int.ofNat n) else none
  | '-' :: rest =>
      (parseDigits rest).bind fun n =>
        if n ≤ 2 ^ 63 then some (-(Int.ofNat n)) else none
  | l =>
      (parseDigits l).bind fun n =>
        if n < 2 ^ 63 then some (Int.ofNat n) else none

/-- The HTTP methods distinguished by the handlers; `other` covers every verb
hitting the `default` branch of the method switch. -/
inductive Method where
  | get
  | post
  | put
  | delete
  | other (name : String)
  deriving DecidableEq, Repr

/-- A response body of the catch-all handler: a single JSON object or a JSON
array of objects. -/
inductive RespVal where
  | obj (fields : List (String × GoVal))
  | list (items : List (List (String × GoVal)))
  deriving DecidableEq, Repr

/-- Outcome of the catch-all handler, by status class. -/
inductive CatchResp where
  | badRequest (msg : String)
  | notFound
  | methodNotAllowed (msg : String)
  | okJson (v : RespVal)
  deriving DecidableEq, Repr

/-- HTTP status code of a catch-all response. -/
def statusOf : CatchResp → Nat
  | CatchResp.badRequest _ => 400
  | CatchResp.notFound => 404
  | CatchResp.methodNotAllowed _ => 405
  | CatchResp.okJson _ => 200

/-- The check `idProp, hasIntegerId := currentSchema.Properties["id"];
isIntegerExpected := hasIntegerId && idProp.Type == "integer"`
(src/main.go lines 102-103, 149-150, 186-187). -/
def idLookupIsInteger (schema : Schema) : Bool :=
  match mapGet schema.properties "id" with
  | some p => p.type = "integer"
  | none => false

/-- The string-key scan of src/main.go lines 116-129 (duplicated at lines
162-173): walk the properties; a property named "id" of type "string" is taken
immediately (the loop breaks); any other string-typed property overwrites the
running choice, because `foundKey` only ever becomes true on the breaking
branch. -/
def scanStringKey : List (String × Property) → String → Bool → String
  | [], stringKey, _ => stringKey
  | (key, prop) :: rest, stringKey, foundKey =>
      if key = "id" ∧ prop.type = "string" then "id"
      else if prop.type = "string" ∧ foundKey = false then
        scanStringKey rest key foundKey
      else scanStringKey rest stringKey foundKey

/-- The shared single-object branch for GET (src/main.go lines 96-132) and PUT
(lines 144-176): synthesize a dummy object and overwrite its id-bearing field
from the requested path segment. -/
def singleObject (schema : Schema) (requestedID : String) : CatchResp :=
  let obj := dummyData (some schema)
  if idLookupIsInteger schema then
    match atoi requestedID with
    | none => CatchResp.badRequest "Invalid ID format: expected integer"
    | some id => CatchResp.okJson (RespVal.obj (mapSet obj "id" (GoVal.vint id)))
  else
    CatchResp.okJson
      (RespVal.obj
        (mapSet obj (scanStringKey schema.properties "id" false) (GoVal.vstr requestedID)))

/-- The GET-list loop of src/main.go lines 89-94: three dummy objects with ids
1, 2, 3. -/
def listOf3 (schema : Schema) : List (List (String × GoVal)) :=
  [1, 2, 3].map (fun i => mapSet (dummyData (some schema)) "id" (GoVal.vint i))

/-- The method/path dispatch of `catchAllHandler` after path splitting
(src/main.go lines 85-210). -/
def route (schema : Schema) (method : Method) (segments : List String) : CatchResp :=
  let entity := entityOf schema
  match method with
  | Method.get =>
      match segments with
      | [s0] =>
          if s0 = entity then CatchResp.okJson (RespVal.list (listOf3 schema))
          else CatchResp.notFound
      | [s0, idSeg] =>
          if s0 = entity then singleObject schema idSeg else CatchResp.notFound
      | _ => CatchResp.notFound
  | Method.post =>
      CatchResp.okJson
        (RespVal.obj (mapSet (dummyData (some schema)) "id" (GoVal.vint 1)))
  | Method.put =>
      match segments with
      | [s0, idSeg] =>
          if s0 = entity then singleObject schema idSeg else CatchResp.notFound
      | _ => CatchResp.notFound
  | Method.delete =>
      match segments with
      | [s0, idSeg] =>
          if s0 = entity then
            if idLookupIsInteger schema then
              match atoi idSeg with
              | none => CatchResp.badRequest "Invalid ID format: expected integer"
              | some _ =>
                  CatchResp.okJson
                    (RespVal.obj [("message", GoVal.vstr "Deleted successfully")])
            else
              CatchResp.okJson
                (RespVal.obj [("message", GoVal.vstr "Deleted successfully")])
          else CatchResp.notFound
      | _ => CatchResp.notFound
  | Method.other _ => CatchResp.methodNotAllowed "Method not supported"

/-- `catchAllHandler` (src/main.go lines 73-216): reject when no schema is
loaded, otherwise trim and split the path and dispatch. -/
def catchAllHandler (cur : Option Schema) (method : Method) (urlPath : String) :
    CatchResp :=
  match cur with
  | none =>
      CatchResp.badRequest "No schema uploaded. Please POST your JSON schema to /upload"
  | some schema => route schema method (splitSlash (trimSlashes urlPath))

/-- The schema of src/main_test.go `createSampleSchema`: title "User" with an
integer id and two string properties, in declaration order. -/
def sampleSchema : Schema :=
  { title := "User"
    type := "object"
    properties := [("id", ⟨"integer"⟩), ("name", ⟨"string"⟩), ("email", ⟨"string"⟩)]
    required := ["id", "name", "email"] }

/-! ## The upload endpoint

`uploadHandler` (src/main.go lines 52-70) decodes the request body into a
`Schema` with `encoding/json` and replaces the global `currentSchema`.  The
decoder is embedded below for the `Schema`/`Property` shape it is used at:
a JSON value is `Json`; `null` decoded into a struct, string, map or slice is
a no-op; a mismatched type is an error; unknown object keys are ignored;
later duplicate keys overwrite.  (Go's case-insensitive fallback for field
names is not modelled; all claims use lower-case keys.) -/

/-- A parsed JSON value (number payloads are integral: fractional values only
ever hit mismatch branches for this struct shape). -/
inductive Json where
  | jnull
  | jbool (b : Bool)
  | jnum (n : Int)
  | jstr (s : String)
  | jarr (items : List Json)
  | jobj (fields : List (String × Json))

/-- Decode a JSON value into a Go `string` field holding `cur`. -/
def decodeStringField (cur : String) : Json → Except String String
  | Json.jnull => Except.ok cur
  | Json.jstr s => Except.ok s
  | _ => Except.error "cannot unmarshal JSON value into Go value of type string"

/-- Decode the fields of a JSON object into a `Property` struct. -/
def decodePropertyFields (cur : Property) : List (String × Json) → Except String Property
  | [] => Except.ok cur
  | (k, v) :: rest =>
      if k = "type" then
        match decodeStringField cur.type v with
        | Except.error e => Except.error e
        | Except.ok t => decodePropertyFields ⟨t⟩ rest
      else decodePropertyFields cur rest

/-- Decode a JSON value into a `Property` (a fresh zero value per map entry,
as `encoding/json` does for map elements). -/
def decodeProperty : Json → Except String Property
  | Json.jnull => Except.ok ⟨""⟩
  | Json.jobj fields => decodePropertyFields ⟨""⟩ fields
  | _ => Except.error "cannot unmarshal JSON value into Go value of type main.Property"

/-- Decode the entries of a JSON object into the `map[string]Property`. -/
def decodePropsFields (cur : List (String × Property)) :
    List (String × Json) → Except String (List (String × Property))
  | [] => Except.ok cur
  | (k, v) :: rest =>
      match decodeProperty v with
      | Except.error e => Except.error e
      | Except.ok pr => decodePropsFields (mapSet cur k pr) rest

/-- Decode a JSON value into the `properties` map, merging into `cur`. -/
def decodeProperties (cur : List (String × Property)) :
    Json → Except String (List (String × Property))
  | Json.jnull => Except.ok cur
  | Json.jobj fields => decodePropsFields cur fields
  | _ => Except.error "cannot unmarshal JSON value into Go value of type map[string]main.Property"

/-- Decode the elements of a JSON array into `[]string` (a `null` element
leaves the zero value `""`). -/
def decodeRequiredElems : List Json → Except String (List String)
  | [] => Except.ok []
  | v :: rest =>
      match (match v with
             | Json.jnull => Except.ok ""
             | Json.jstr s => Except.ok s
             | _ =>
                 Except.error "cannot unmarshal JSON value into Go value of type string") with
      | Except.error e => Except.error e
      | Except.ok s =>
          match decodeRequiredElems rest with
          | Except.error e => Except.error e
          | Except.ok l => Except.ok (s :: l)

/-- Decode a JSON value into the `required` slice. -/
def decodeRequired (cur : List String) : Json → Except String (List String)
  | Json.jnull => Except.ok cur
  | Json.jarr items => decodeRequiredElems items
  | _ => Except.error "cannot unmarshal JSON value into Go value of type []string"

/-- Decode the fields of a JSON object into a `Schema` struct. -/
def decodeSchemaFields (cur : Schema) : List (String × Json) → Except String Schema
  | [] => Except.ok cur
  | (k, v) :: rest =>
      if k = "title" then
        match decodeStringField cur.title v with
        | Except.error e => Except.error e
        | Except.ok t => decodeSchemaFields { cur with title := t } rest
      else if k = "type" then
        match decodeStringField cur.type v with
        | Except.error e => Except.error e
        | Except.ok t => decodeSchemaFields { cur with type := t } rest
      else if k = "properties" then
        match decodeProperties cur.properties v with
        | Except.error e => Except.error e
        | Except.ok ps => decodeSchemaFields { cur with properties := ps } rest
      else if k = "required" then
        match decodeRequired cur.required v with
        | Except.error e => Except.error e
        | Except.ok rq => decodeSchemaFields { cur with required := rq } rest
      else decodeSchemaFields cur rest

/-- The zero value of the Go `Schema` struct. -/
def zeroSchema : Schema :=
  { title := "", type := "", properties := [], required := [] }

/-- `json.NewDecoder(r.Body).Decode(&schema)` for a body that parsed to the
JSON value given: `null` leaves the zero struct, an object decodes field-wise,
anything else is a type mismatch. -/
def decodeSchema : Json → Except String Schema
  | Json.jnull => Except.ok zeroSchema
  | Json.jobj fields => decodeSchemaFields zeroSchema fields
  | _ => Except.error "cannot unmarshal JSON value into Go value of type main.Schema"

/-- Outcome of the upload handler. -/
inductive UploadResp where
  | methodNotAllowed (msg : String)
  | badRequest (msg : String)
  | okJson (body : List (String × GoVal))
  deriving DecidableEq, Repr

/-- HTTP status code of an upload response. -/
def uploadStatusOf : UploadResp → Nat
  | UploadResp.methodNotAllowed _ => 405
  | UploadResp.badRequest _ => 400
  | UploadResp.okJson _ => 200

/-- `uploadHandler` (src/main.go lines 52-70).  `body` is the outcome of
reading and parsing the raw request bytes: `Except.error` for a syntax error,
`Except.ok j` for the JSON value `j`.  The returned pair is the new value of
the global `currentSchema` together with the response; on any error the
stored schema is passed through unchanged. -/
def uploadHandler (method : Method) (body : Except String Json)
    (cur : Option Schema) : Option Schema × UploadResp :=
  match method with
  | Method.post =>
      match body.bind decodeSchema with
      | Except.error e => (cur, UploadResp.badRequest ("Invalid JSON schema: " ++ e))
      | Except.ok schema =>
          (some schema,
           UploadResp.okJson
             [("message", GoVal.vstr "Schema uploaded successfully"),
              ("title", GoVal.vstr schema.title)])
  | _ => (cur, UploadResp.methodNotAllowed "Only POST allowed")

example : entityOf sampleSchema = "users" := by decide
example : atoi "123" = some 123 := by decide
example : atoi "abc" = none := by decide
example : atoi "-7" = some (-7) := by decide
example : splitSlash (trimSlashes "/users/123/") = ["users", "123"] := by decide
example : splitSlash (trimSlashes "/") = [""] := by decide

/-! ## Spec-side selection rule for the string-ID field

Section 4.4 of the spec describes which field of the synthesized object
receives the raw string segment.  `hasIdString` and `lastStringKey` let us
state the rule the code actually implements. -/

/-- Whether some property is literally named "id" with type "string". -/
def hasIdString : List (String × Property) → Bool
  | [] => false
  | (k, pr) :: rest =>
      if k = "id" ∧ pr.type = "string" then true else hasIdString rest

/-- The key of the last string-typed property of the list, if any. -/
def lastStringKey : List (String × Property) → Option String
  | [] => none
  | (k, pr) :: rest =>
      match lastStringKey rest with
      | some r => some r
      | none => if pr.type = "string" then some k else none

/-- The field that the code's scan selects, stated declaratively: "id" when a
string-typed property named "id" exists, otherwise the last string-typed
property encountered, otherwise the default "id". -/
def chosenKeySpec (props : List (String × Property)) : String :=
  if hasIdString props then "id" else (lastStringKey props).getD "id"

/-- The key of the first string-typed property of the list, if any; this is
what the spec's scan policy ("the first string-typed property encountered")
selects. -/
def firstStringKey : List (String × Property) → Option String
  | [] => none
  | (k, pr) :: rest =>
      if pr.type = "string" then some k else firstStringKey rest

/-! ## Helper lemmas -/

theorem mapGet_mapSet_self {α : Type} (m : List (String × α)) (k : String) (v : α) :
    mapGet (mapSet m k v) k = some v := by
  induction m with
  | nil => simp [mapGet, mapSet]
  | cons hd tl ih =>
      obtain ⟨k2, v2⟩ := hd
      by_cases h : k2 = k <;> simp [mapGet, mapSet, h, ih]

theorem mapGet_mapSet_ne {α : Type} (m : List (String × α)) (k k2 : String) (v : α)
    (h : k2 ≠ k) : mapGet (mapSet m k v) k2 = mapGet m k2 := by
  induction m with
  | nil => simp [mapGet, mapSet, Ne.symm h]
  | cons hd tl ih =>
      obtain ⟨k3, v3⟩ := hd
      by_cases h3 : k3 = k
      · subst h3
        simp [mapGet, mapSet, Ne.symm h]
      · by_cases h4 : k3 = k2
        · subst h4
          simp [mapGet, mapSet, h3]
        · simp [mapGet, mapSet, h3, h4, ih]

/-- The Go scan (with the never-true `foundKey` flag as it actually runs)
computes: "id" when an id-string property exists, else the last string-typed
key, else the running default. -/
theorem scanStringKey_characterization (props : List (String × Property)) (acc : String) :
    scanStringKey props acc false =
      if hasIdString props then "id" else (lastStringKey props).getD acc := by
  induction props generalizing acc with
  | nil => simp [scanStringKey, hasIdString, lastStringKey]
  | cons hd tl ih =>
      obtain ⟨k, pr⟩ := hd
      by_cases h1 : k = "id" ∧ pr.type = "string"
      · simp [scanStringKey, hasIdString, h1]
      · by_cases h2 : pr.type = "string"
        · have hk : ¬k = "id" := fun hk => h1 ⟨hk, h2⟩
          rw [show scanStringKey ((k, pr) :: tl) acc false = scanStringKey tl k false by
            simp [scanStringKey, hk, h2]]
          rw [ih k]
          simp only [hasIdString, lastStringKey, h1, if_false]
          rcases h3 : lastStringKey tl with _ | r <;> simp [h3, h2]
        · rw [show scanStringKey ((k, pr) :: tl) acc false = scanStringKey tl acc false by
            simp [scanStringKey, h1, h2]]
          rw [ih acc]
          simp only [hasIdString, lastStringKey, h1, if_false]
          rcases h3 : lastStringKey tl with _ | r <;> simp [h3, h2]

theorem trimChars_append_slash (l : List Char) :
    (((l ++ ['/']).dropWhile (· = '/')).reverse.dropWhile (· = '/')).reverse =
      ((l.dropWhile (· = '/')).reverse.dropWhile (· = '/')).reverse := by
  induction l with
  | nil => simp [List.dropWhile]
  | cons c t ih =>
      by_cases hc : c = '/'
      · subst hc
        simpa [List.dropWhile] using ih
      · simp [List.dropWhile, hc, List.reverse_append]

theorem string_data_append (p q : String) : (p ++ q).data = p.data ++ q.data := by
  obtain ⟨l⟩ := p
  obtain ⟨m⟩ := q
  rfl

/-- Trailing slash: trimming absorbs one appended slash. -/
theorem trimSlashes_append_slash (p : String) : trimSlashes (p ++ "/") = trimSlashes p := by
  unfold trimSlashes
  rw [string_data_append]
  exact congrArg String.mk (congrArg List.reverse (by
    simpa using congrArg List.reverse (trimChars_append_slash p.data)))

/-- Leading slash: trimming absorbs one prepended slash. -/
theorem trimSlashes_slash_append (p : String) : trimSlashes ("/" ++ p) = trimSlashes p := by
  unfold trimSlashes
  rw [string_data_append]
  simp [List.dropWhile]

/-- The entity name always ends in "s", hence is never the empty string. -/
theorem entityOf_ne_empty (s : Schema) : entityOf s ≠ "" := by
  intro h
  have h2 := congrArg String.data h
  rw [entityOf] at h2
  rw [string_data_append] at h2
  simp at h2

/-- `dummyData` lookup on a key-distinct schema gives the placeholder of the
declared type. -/
theorem mapGet_dummyData (props : List (String × Property)) (key : String) (prop : Property)
    (hmem : (key, prop) ∈ props) (hnd : (props.map Prod.fst).Nodup) :
    mapGet (props.map fun kp => (kp.1, placeholderOf kp.2.type)) key =
      some (placeholderOf prop.type) := by
  induction props with
  | nil => simp at hmem
  | cons hd tl ih =>
      obtain ⟨k, pr⟩ := hd
      simp only [List.map_cons, List.nodup_cons, List.mem_map] at hnd
      rcases List.mem_cons.mp hmem with h | h
      · have h1 : key = k := congrArg Prod.fst h
        have h2 : prop = pr := congrArg Prod.snd h
        subst h1
        subst h2
        simp [mapGet]
      · have hne : k ≠ key := by
          intro hk
          exact hnd.1 ⟨(key, prop), h, by simp [hk]⟩
        simp [mapGet, hne, ih h hnd.2]

/-- A schema with two string-typed properties and no "id" property, used to
exercise the string-ID field scan. -/
def twoStringSchema : Schema :=
  { title := "User"
    type := "object"
    properties := [("a", ⟨"string"⟩), ("b", ⟨"string"⟩)]
    required := [] }

/-! ## Claims -/

/-- C7: while no schema is active, every request to the catch-all handler —
any method, any path — is answered with the fixed 400 instructional message,
before any path matching or method dispatch. -/
theorem noSchemaBadRequest (m : Method) (p : String) :
    catchAllHandler none m p =
      CatchResp.badRequest "No schema uploaded. Please POST your JSON schema to /upload" ∧
    statusOf (catchAllHandler none m p) = 400 :=
  ⟨rfl, rfl⟩

/-- C1 (counterexample): with the sample schema active (entity "users"), a
POST to "/products" — one segment, not the entity name — is not answered with
not-found: the handler returns the synthesized object with id 1 without ever
matching the path. -/
theorem postPathCounterexample :
    catchAllHandler (some sampleSchema) Method.post "/products" ≠ CatchResp.notFound ∧
    catchAllHandler (some sampleSchema) Method.post "/products" =
      CatchResp.okJson (RespVal.obj
        [("id", GoVal.vint 1), ("name", GoVal.vstr "example"),
         ("email", GoVal.vstr "example")]) := by
  constructor
  · decide
  · decide

/-- C1 (amended): for every active schema, a POST request handled by the
catch-all handler returns the synthesized object with id forced to 1
regardless of the request path — the POST branch performs no path matching. -/
theorem postReturnsIdOneAnyPath (s : Schema) (p : String) :
    catchAllHandler (some s) Method.post p =
      CatchResp.okJson
        (RespVal.obj (mapSet (dummyData (some s)) "id" (GoVal.vint 1))) :=
  rfl

/-- C9: the catch-all handler strips all leading and trailing slashes before
splitting, so appending or prepending a slash to any path routes identically;
the bare root path splits into the single empty segment, and the entity name
is never empty, so the empty segment never matches it. -/
theorem slashTrimmingRouting (s : Schema) (m : Method) (p : String) :
    catchAllHandler (some s) m (p ++ "/") = catchAllHandler (some s) m p ∧
    catchAllHandler (some s) m ("/" ++ p) = catchAllHandler (some s) m p ∧
    splitSlash (trimSlashes "/") = [""] ∧
    entityOf s ≠ "" := by
  refine ⟨?_, ?_, by decide, entityOf_ne_empty s⟩
  · show route s m (splitSlash (trimSlashes (p ++ "/"))) =
      route s m (splitSlash (trimSlashes p))
    rw [trimSlashes_append_slash]
  · show route s m (splitSlash (trimSlashes ("/" ++ p))) =
      route s m (splitSlash (trimSlashes p))
    rw [trimSlashes_slash_append]

/-- C10: posting the JSON bodies "null" and "\x7b\x7d" to /upload succeeds with
status 200 and installs the zero schema (empty title), whose entity name is
the single-character segment "s"; subsequent routing uses that name. -/
theorem emptyUploadYieldsEntityS (cur : Option Schema) :
    uploadHandler Method.post (Except.ok Json.jnull) cur =
      (some zeroSchema,
       UploadResp.okJson
         [("message", GoVal.vstr "Schema uploaded successfully"),
          ("title", GoVal.vstr "")]) ∧
    uploadHandler Method.post (Except.ok (Json.jobj [])) cur =
      (some zeroSchema,
       UploadResp.okJson
         [("message", GoVal.vstr "Schema uploaded successfully"),
          ("title", GoVal.vstr "")]) ∧
    uploadStatusOf (uploadHandler Method.post (Except.ok Json.jnull) cur).2 = 200 ∧
    entityOf zeroSchema = "s" ∧
    catchAllHandler (some zeroSchema) Method.get "/s" =
      CatchResp.okJson (RespVal.list
        [[("id", GoVal.vint 1)], [("id", GoVal.vint 2)], [("id", GoVal.vint 3)]]) := by
  exact ⟨rfl, rfl, rfl, by decide, by decide⟩

/-- C3: with an active schema declaring an "id" property of type "integer",
a GET, PUT or DELETE on /entity/idSeg fails as a 400 bad request with the
"expected integer" message when the segment does not parse as an integer; when
it parses to n, GET and PUT return the synthesized object with its "id" field
set to the integer n, and DELETE returns only the fixed acknowledgment,
synthesizing nothing. -/
theorem integerIdRule (s : Schema) (p idSeg : String)
    (hInt : idLookupIsInteger s = true)
    (hSeg : splitSlash (trimSlashes p) = [entityOf s, idSeg]) :
    (atoi idSeg = none →
      catchAllHandler (some s) Method.get p =
        CatchResp.badRequest "Invalid ID format: expected integer" ∧
      catchAllHandler (some s) Method.put p =
        CatchResp.badRequest "Invalid ID format: expected integer" ∧
      catchAllHandler (some s) Method.delete p =
        CatchResp.badRequest "Invalid ID format: expected integer") ∧
    (∀ n : Int, atoi idSeg = some n →
      catchAllHandler (some s) Method.get p =
        CatchResp.okJson (RespVal.obj (mapSet (dummyData (some s)) "id" (GoVal.vint n))) ∧
      catchAllHandler (some s) Method.put p =
        CatchResp.okJson (RespVal.obj (mapSet (dummyData (some s)) "id" (GoVal.vint n))) ∧
      catchAllHandler (some s) Method.delete p =
        CatchResp.okJson (RespVal.obj [("message", GoVal.vstr "Deleted successfully")])) := by
  constructor
  · intro ha
    refine ⟨?_, ?_, ?_⟩ <;>
      · simp only [catchAllHandler]
        rw [hSeg]
        simp [route, singleObject, hInt, ha]
  · intro n hn
    refine ⟨?_, ?_, ?_⟩ <;>
      · simp only [catchAllHandler]
        rw [hSeg]
        simp [route, singleObject, hInt, hn]

/-- C3 witness: on the sample schema, GET /users/123 yields the object with
integer id 123, and GET /users/abc is a 400 with the expected-integer text. -/
theorem integerIdRule_witness :
    catchAllHandler (some sampleSchema) Method.get "/users/123" =
      CatchResp.okJson
        (RespVal.obj (mapSet (dummyData (some sampleSchema)) "id" (GoVal.vint 123))) ∧
    catchAllHandler (some sampleSchema) Method.get "/users/abc" =
      CatchResp.badRequest "Invalid ID format: expected integer" :=
  ⟨((integerIdRule sampleSchema "/users/123" "123" (by decide) (by decide)).2 123
      (by decide)).1,
   ((integerIdRule sampleSchema "/users/abc" "abc" (by decide) (by decide)).1
      (by decide)).1⟩

/-- C5: with any active schema, GET on the bare entity path returns the list
of exactly three synthesized objects whose "id" fields are 1, 2 and 3 in
order, every other field being left as synthesized by the placeholder table. -/
theorem getListThreeObjects (s : Schema) (p : String)
    (hSeg : splitSlash (trimSlashes p) = [entityOf s]) :
    catchAllHandler (some s) Method.get p =
      CatchResp.okJson (RespVal.list
        [mapSet (dummyData (some s)) "id" (GoVal.vint 1),
         mapSet (dummyData (some s)) "id" (GoVal.vint 2),
         mapSet (dummyData (some s)) "id" (GoVal.vint 3)]) ∧
    (listOf3 s).length = 3 ∧
    (∀ i : Int,
      mapGet (mapSet (dummyData (some s)) "id" (GoVal.vint i)) "id" =
        some (GoVal.vint i)) ∧
    (∀ key, key ≠ "id" → ∀ i : Int,
      mapGet (mapSet (dummyData (some s)) "id" (GoVal.vint i)) key =
        mapGet (dummyData (some s)) key) := by
  refine ⟨?_, rfl, fun i => mapGet_mapSet_self _ _ _,
    fun key hk i => mapGet_mapSet_ne _ _ _ _ hk⟩
  simp only [catchAllHandler]
  rw [hSeg]
  simp [route, listOf3]

/-- C5 witness: GET /users on the sample schema returns the three objects with
ids 1, 2, 3. -/
theorem getListThreeObjects_witness :
    catchAllHandler (some sampleSchema) Method.get "/users" =
      CatchResp.okJson (RespVal.list
        [mapSet (dummyData (some sampleSchema)) "id" (GoVal.vint 1),
         mapSet (dummyData (some sampleSchema)) "id" (GoVal.vint 2),
         mapSet (dummyData (some sampleSchema)) "id" (GoVal.vint 3)]) :=
  (getListThreeObjects sampleSchema "/users" (by decide)).1

/-- C6: a DELETE on /entity/idSeg whose segment passes validation (always,
unless an integer id is declared and the segment fails to parse) synthesizes
nothing and returns exactly the fixed acknowledgment body with status 200. -/
theorem deleteAcknowledgment (s : Schema) (p idSeg : String)
    (hSeg : splitSlash (trimSlashes p) = [entityOf s, idSeg])
    (hValid : idLookupIsInteger s = true → (atoi idSeg).isSome = true) :
    catchAllHandler (some s) Method.delete p =
      CatchResp.okJson (RespVal.obj [("message", GoVal.vstr "Deleted successfully")]) ∧
    statusOf (catchAllHandler (some s) Method.delete p) = 200 := by
  have hmain : catchAllHandler (some s) Method.delete p =
      CatchResp.okJson (RespVal.obj [("message", GoVal.vstr "Deleted successfully")]) := by
    simp only [catchAllHandler]
    rw [hSeg]
    by_cases hInt : idLookupIsInteger s = true
    · have hs := hValid hInt
      rcases ha : atoi idSeg with _ | n
      · rw [ha] at hs
        simp at hs
      · simp [route, hInt, ha]
    · simp [route, hInt]
  exact ⟨hmain, by rw [hmain]; rfl⟩

/-- C6 witness: DELETE /users/789 on the sample schema returns the deletion
acknowledgment. -/
theorem deleteAcknowledgment_witness :
    catchAllHandler (some sampleSchema) Method.delete "/users/789" =
      CatchResp.okJson (RespVal.obj [("message", GoVal.vstr "Deleted successfully")]) :=
  (deleteAcknowledgment sampleSchema "/users/789" "789" (by decide) (by decide)).1

/-- C2 (counterexample): on a schema with two string properties "a" then "b"
(in iteration order) and no "id" property, the spec's rule picks the first
string-typed property "a", but GET /users/xyz writes the segment into "b" —
the scan keeps overwriting its choice, so the last string-typed property
wins. -/
theorem stringIdScanCounterexample :
    mapGet twoStringSchema.properties "id" = none ∧
    firstStringKey twoStringSchema.properties = some "a" ∧
    catchAllHandler (some twoStringSchema) Method.get "/users/xyz" =
      CatchResp.okJson (RespVal.obj
        [("a", GoVal.vstr "example"), ("b", GoVal.vstr "xyz")]) ∧
    catchAllHandler (some twoStringSchema) Method.get "/users/xyz" ≠
      CatchResp.okJson (RespVal.obj
        (mapSet (dummyData (some twoStringSchema)) "a" (GoVal.vstr "xyz"))) := by
  exact ⟨by decide, by decide, by decide, by decide⟩

/-- C2 (amended): with no integer-typed "id" declared, the field of the
synthesized object overwritten with the raw segment on GET and PUT is: the
property literally named "id" if its type is "string"; otherwise the LAST
string-typed property encountered in the scan; otherwise a field named "id"
when no string-typed property exists. -/
theorem stringIdFieldSelection (s : Schema) (p idSeg : String)
    (hNoInt : idLookupIsInteger s = false)
    (hSeg : splitSlash (trimSlashes p) = [entityOf s, idSeg]) :
    catchAllHandler (some s) Method.get p =
      CatchResp.okJson (RespVal.obj
        (mapSet (dummyData (some s)) (chosenKeySpec s.properties) (GoVal.vstr idSeg))) ∧
    catchAllHandler (some s) Method.put p =
      CatchResp.okJson (RespVal.obj
        (mapSet (dummyData (some s)) (chosenKeySpec s.properties) (GoVal.vstr idSeg))) := by
  have hscan : scanStringKey s.properties "id" false = chosenKeySpec s.properties := by
    rw [scanStringKey_characterization]
    rfl
  constructor <;>
    · simp only [catchAllHandler]
      rw [hSeg]
      simp [route, singleObject, hNoInt, hscan]

/-- C2 witness: on the two-string schema the selected field is the spec-side
chosen key, evaluated at GET /users/xyz. -/
theorem stringIdFieldSelection_witness :
    catchAllHandler (some twoStringSchema) Method.get "/users/xyz" =
      CatchResp.okJson (RespVal.obj
        (mapSet (dummyData (some twoStringSchema))
          (chosenKeySpec twoStringSchema.properties) (GoVal.vstr "xyz"))) :=
  (stringIdFieldSelection twoStringSchema "/users/xyz" "xyz" (by decide) (by decide)).1

/-- C4: synthesis maps every declared property to the placeholder chosen only
by its type tag — "string" to "example", "integer" to 1, "number" to the
float zero, "boolean" to false, everything else to null — and two schemas
differing only in their required list synthesize identically. -/
theorem synthesizeByTypeTable (s : Schema) (req : List String) :
    dummyData (some s) =
      s.properties.map (fun kp => (kp.1, placeholderOf kp.2.type)) ∧
    dummyData (some { s with required := req }) = dummyData (some s) ∧
    (∀ key prop, (key, prop) ∈ s.properties → (s.properties.map Prod.fst).Nodup →
      mapGet (dummyData (some s)) key = some (placeholderOf prop.type)) ∧
    placeholderOf "string" = GoVal.vstr "example" ∧
    placeholderOf "integer" = GoVal.vint 1 ∧
    placeholderOf "number" = GoVal.vfloatZero ∧
    placeholderOf "boolean" = GoVal.vbool false ∧
    (∀ t, t ≠ "string" → t ≠ "integer" → t ≠ "number" → t ≠ "boolean" →
      placeholderOf t = GoVal.vnull) := by
  refine ⟨rfl, rfl, ?_, rfl, rfl, rfl, rfl, ?_⟩
  · intro key prop hmem hnd
    exact mapGet_dummyData s.properties key prop hmem hnd
  · intro t h1 h2 h3 h4
    unfold placeholderOf
    split <;> simp_all

/-- C4 witness: on the sample schema, the "name" property synthesizes to the
string placeholder, and a property of an unknown type synthesizes to null. -/
theorem synthesizeByTypeTable_witness :
    mapGet (dummyData (some sampleSchema)) "name" = some (placeholderOf "string") ∧
    placeholderOf "array" = GoVal.vnull :=
  ⟨(synthesizeByTypeTable sampleSchema []).2.2.1 "name" ⟨"string"⟩ (by decide) (by decide),
   (synthesizeByTypeTable sampleSchema []).2.2.2.2.2.2.2 "array"
     (by decide) (by decide) (by decide) (by decide)⟩

/-- C8: the upload endpoint answers non-POST methods with 405; on a body that
fails to parse or decode into a Schema it answers 400 with the diagnostic and
leaves the stored schema untouched; on success it replaces the stored schema
wholesale and answers 200 with the fixed success body carrying the title. -/
theorem uploadReplacesSchema (body : Except String Json) (cur : Option Schema) :
    (∀ m, m ≠ Method.post →
      uploadHandler m body cur = (cur, UploadResp.methodNotAllowed "Only POST allowed") ∧
      uploadStatusOf (uploadHandler m body cur).2 = 405) ∧
    (∀ e, body.bind decodeSchema = Except.error e →
      uploadHandler Method.post body cur =
        (cur, UploadResp.badRequest ("Invalid JSON schema: " ++ e)) ∧
      uploadStatusOf (uploadHandler Method.post body cur).2 = 400) ∧
    (∀ sc, body.bind decodeSchema = Except.ok sc →
      uploadHandler Method.post body cur =
        (some sc,
         UploadResp.okJson
           [("message", GoVal.vstr "Schema uploaded successfully"),
            ("title", GoVal.vstr sc.title)]) ∧
      uploadStatusOf (uploadHandler Method.post body cur).2 = 200) := by
  refine ⟨?_, ?_, ?_⟩
  · intro m hm
    cases m with
    | get => exact ⟨rfl, rfl⟩
    | post => exact absurd rfl hm
    | put => exact ⟨rfl, rfl⟩
    | delete => exact ⟨rfl, rfl⟩
    | other name => exact ⟨rfl, rfl⟩
  · intro e he
    have hmain : uploadHandler Method.post body cur =
        (cur, UploadResp.badRequest ("Invalid JSON schema: " ++ e)) := by
      simp [uploadHandler, he]
    exact ⟨hmain, by rw [hmain]; rfl⟩
  · intro sc hsc
    have hmain : uploadHandler Method.post body cur =
        (some sc,
         UploadResp.okJson
           [("message", GoVal.vstr "Schema uploaded successfully"),
            ("title", GoVal.vstr sc.title)]) := by
      simp [uploadHandler, hsc]
    exact ⟨hmain, by rw [hmain]; rfl⟩

/-- C8 witness: a GET is rejected with 405 leaving the store unchanged; a
syntactically invalid body leaves the sample schema in place with a 400; a
decodable body replaces the store and reports the new title. -/
theorem uploadReplacesSchema_witness :
    uploadHandler Method.get (Except.ok Json.jnull) none =
      (none, UploadResp.methodNotAllowed "Only POST allowed") ∧
    uploadHandler Method.post (Except.error "unexpected end of JSON input")
        (some sampleSchema) =
      (some sampleSchema,
       UploadResp.badRequest "Invalid JSON schema: unexpected end of JSON input") ∧
    uploadHandler Method.post (Except.ok (Json.jobj [("title", Json.jstr "User")])) none =
      (some { zeroSchema with title := "User" },
       UploadResp.okJson
         [("message", GoVal.vstr "Schema uploaded successfully"),
          ("title", GoVal.vstr "User")]) :=
  ⟨((uploadReplacesSchema (Except.ok Json.jnull) none).1 Method.get (by decide)).1,
   ((uploadReplacesSchema (Except.error "unexpected end of JSON input")
       (some sampleSchema)).2.1 "unexpected end of JSON input" rfl).1,
   ((uploadReplacesSchema (Except.ok (Json.jobj [("title", Json.jstr "User")])) none).2.2
       { zeroSchema with title := "User" } rfl).1⟩
